import Mathlib

/-!
Shallow embedding of the per-frame GPU synchronization core of the
bevy_vulkano repository (renderer state machine, frame sync registry,
render pass orchestration, videomode selection and device selection),
together with theorems settling the specification claims.

External GPU-API outcomes (swapchain acquisition, fence flush, swapchain
recreation) are modelled as environment inputs; GPU futures are modelled
as symbolic tokens; panics are modelled with an explicit Except layer.
-/

namespace BevyVulkano

instance {ε α : Type} [DecidableEq ε] [DecidableEq α] : DecidableEq (Except ε α) :=
  fun x y =>
    match x, y with
    | Except.ok a, Except.ok b =>
        if h : a = b then isTrue (by rw [h]) else isFalse (by simp [h])
    | Except.error a, Except.error b =>
        if h : a = b then isTrue (by rw [h]) else isFalse (by simp [h])
    | Except.ok _, Except.error _ => isFalse (by simp)
    | Except.error _, Except.ok _ => isFalse (by simp)

/-- Symbolic model of a vulkano GpuFuture token (Box dyn GpuFuture).
The constructors record how the token was built:
now is sync::now(device), acquireFuture is the swapchain acquire future,
join is GpuFuture::join, thenExecute is command buffer execution chained
on the graphics queue, presentFence is then_swapchain_present followed by
then_signal_fence_and_flush. -/
inductive Token where
  | now : Token
  | acquireFuture : Nat → Token
  | join : Token → Token → Token
  | thenExecute : Token → List Nat → Token
  | presentFence : Token → Nat → Token
  deriving Repr, DecidableEq

/-- Model of an image view: its pixel size and its vulkano format,
the format being an opaque numeric code. -/
structure DeviceImage where
  width : Nat
  height : Nat
  format : Nat
  deriving Repr, DecidableEq

/-- Model of the mutable per-window state of struct Renderer in
src/vulkano_renderer.rs. Device handles and queues are omitted: they are
immutable after construction. The interim image view map (HashMap of
usize to (DeviceImageView, bool)) is an association list whose Bool is
the follow-swapchain flag. -/
structure Renderer where
  swap_chain : Nat
  image_index : Nat
  final_views : List DeviceImage
  interim_image_views : List (Nat × DeviceImage × Bool)
  recreate_swapchain : Bool
  previous_frame_end : Option Token
  deriving Repr, DecidableEq

/-- Panic reasons for the modelled unwrap and panic sites. -/
inductive Panic where
  | emptyPreviousFrameEnd
  | acquireFatal
  | recreateFatal
  | interimTargetMissing
  | finalViewsEmpty
  deriving Repr, DecidableEq

/-- Environment outcome of swapchain::acquire_next_image. -/
inductive AcquireResult where
  | ok : Nat → Bool → AcquireResult
  | outOfDate
  | otherError
  deriving Repr, DecidableEq

/-- The only non-fatal error start_frame returns to its caller. -/
inductive AcquireErr where
  | outOfDate
  deriving Repr, DecidableEq

/-- Environment outcome of swap_chain.recreate().dimensions(d).build(). -/
inductive RecreateResult where
  | ok : Nat → List DeviceImage → RecreateResult
  | unsupportedDimensions
  | otherError
  deriving Repr, DecidableEq

/-- Environment outcome of then_signal_fence_and_flush; on success the
Bool records whether the subsequent wait returned Ok. -/
inductive FlushResult where
  | ok : Bool → FlushResult
  | outOfDate
  | otherError
  deriving Repr, DecidableEq

/-- Lookup in the interim image view association list (HashMap get). -/
def lookup_interim (l : List (Nat × DeviceImage × Bool)) (k : Nat) :
    Option (DeviceImage × Bool) :=
  match l with
  | [] => none
  | e :: rest => if e.1 = k then some e.2 else lookup_interim rest k

/-- HashMap insert: replace the value at the key if present, else append. -/
def insert_interim (l : List (Nat × DeviceImage × Bool)) (k : Nat)
    (v : DeviceImage × Bool) : List (Nat × DeviceImage × Bool) :=
  match l with
  | [] => [(k, v)]
  | e :: rest => if e.1 = k then (k, v) :: rest else e :: insert_interim rest k v

/-- Model of create_device_image: a storage image of the given size and
format (the created view has the same size and format). -/
def create_device_image (size : Nat × Nat) (format : Nat) : DeviceImage :=
  { width := size.1, height := size.2, format := format }

/-- Model of Renderer::final_image_size, indexing final_views at 0
(a panic when the list is empty). -/
def final_image_size (s : Renderer) : Except Panic (Nat × Nat) :=
  match s.final_views with
  | [] => Except.error Panic.finalViewsEmpty
  | v :: _ => Except.ok (v.width, v.height)

/-- Model of Renderer::get_image_target, an unwrap of the map lookup. -/
def get_image_target (s : Renderer) (key : Nat) : Except Panic DeviceImage :=
  match lookup_interim s.interim_image_views key with
  | some (img, _) => Except.ok img
  | none => Except.error Panic.interimTargetMissing

/-- Model of Renderer::remove_image_target (HashMap remove). -/
def remove_image_target (s : Renderer) (key : Nat) : Renderer :=
  { s with interim_image_views :=
      s.interim_image_views.filter (fun e => e.1 ≠ key) }

/-- Renderer with its interim image view map replaced; abbreviation for
stating map-update equations. -/
def with_interim (s : Renderer) (m : List (Nat × DeviceImage × Bool)) : Renderer :=
  { s with interim_image_views := m }

/-- Model of Renderer::add_image_target: the image size is the explicit
view size when given, else the current final image size; the stored Bool
is whether no explicit size was given (follow swapchain). -/
def add_image_target (s : Renderer) (key : Nat) (view_size : Option (Nat × Nat))
    (format : Nat) : Except Panic Renderer :=
  match view_size with
  | some sz =>
      let m := insert_interim s.interim_image_views key (create_device_image sz format, false)
      Except.ok { s with interim_image_views := m }
  | none =>
      match final_image_size s with
      | Except.error p => Except.error p
      | Except.ok sz =>
          let m := insert_interim s.interim_image_views key (create_device_image sz format, true)
          Except.ok { s with interim_image_views := m }

/-- The for-loop body of Renderer::recreate_swapchain_and_views over the
collected resizable keys: read the current format, remove the target,
re-add it with no explicit size (hence at the final image size). -/
def resize_interim_targets (keys : List Nat) (s : Renderer) : Except Panic Renderer :=
  match keys with
  | [] => Except.ok s
  | i :: rest =>
      match get_image_target s i with
      | Except.error p => Except.error p
      | Except.ok img =>
          match add_image_target (remove_image_target s i) i none img.format with
          | Except.error p => Except.error p
          | Except.ok s2 => resize_interim_targets rest s2

/-- Model of Renderer::recreate_swapchain_and_views: on unsupported
dimensions log and return leaving the state unchanged; on any other
build failure panic; on success install the new swapchain and views,
recreate the follow-swapchain interim targets, and clear the flag. -/
def recreate_swapchain_and_views (env : RecreateResult) (s : Renderer) :
    Except Panic Renderer :=
  match env with
  | RecreateResult.unsupportedDimensions => Except.ok s
  | RecreateResult.otherError => Except.error Panic.recreateFatal
  | RecreateResult.ok newSc newImages =>
      let s1 := { s with swap_chain := newSc, final_views := newImages }
      let keys := (s1.interim_image_views.filter (fun e => e.2.2)).map (fun e => e.1)
      match resize_interim_targets keys s1 with
      | Except.error p => Except.error p
      | Except.ok s2 => Except.ok { s2 with recreate_swapchain := false }

/-- Environment for one start_frame call: the swapchain recreation
outcome (used only when the dirty flag is set) and the acquisition
outcome. -/
structure StartEnv where
  recreate : RecreateResult
  acquire : AcquireResult
  deriving Repr, DecidableEq

/-- Model of Renderer::start_frame. Recreate the swapchain when the
dirty flag is set; then acquire: out of date sets the flag and returns
the error without touching image_index or the previous frame end slot;
any other acquisition failure panics; on success the flag is set when
suboptimal, image_index is updated, and the stored previous frame end
is taken (an unwrap: a panic when the slot is empty) and joined with
the acquire future. -/
def start_frame (env : StartEnv) (s : Renderer) :
    Except Panic (Renderer × Except AcquireErr Token) :=
  match (if s.recreate_swapchain then recreate_swapchain_and_views env.recreate s
         else Except.ok s) with
  | Except.error p => Except.error p
  | Except.ok s1 =>
      match env.acquire with
      | AcquireResult.outOfDate =>
          Except.ok ({ s1 with recreate_swapchain := true },
                     Except.error AcquireErr.outOfDate)
      | AcquireResult.otherError => Except.error Panic.acquireFatal
      | AcquireResult.ok imageNum suboptimal =>
          let s2 := if suboptimal then { s1 with recreate_swapchain := true } else s1
          let s3 := { s2 with image_index := imageNum }
          match s3.previous_frame_end with
          | none => Except.error Panic.emptyPreviousFrameEnd
          | some prev =>
              Except.ok ({ s3 with previous_frame_end := none },
                         Except.ok (Token.join prev (Token.acquireFuture imageNum)))

/-- Observable outcome of one finish_frame call: whether the caller
waited on the fence and whether an error was logged. -/
structure FinishInfo where
  waited : Bool
  logged_error : Bool
  deriving Repr, DecidableEq

/-- Model of Renderer::finish_frame: chain a present of the current
image index after the given future and flush. On success wait on the
fence unconditionally (logging a wait error) and store the fence future
as the new previous frame end; on an out of date flush set the dirty
flag and reset the slot to a completed now token, swallowing the error;
on any other flush error log it and reset the slot to a completed now
token. The function is total: it neither panics nor returns an error. -/
def finish_frame (flush : FlushResult) (after_future : Token) (s : Renderer) :
    Renderer × FinishInfo :=
  match flush with
  | FlushResult.ok waitOk =>
      let fence := Token.presentFence after_future s.image_index
      ({ s with previous_frame_end := some fence },
       { waited := true, logged_error := !waitOk })
  | FlushResult.outOfDate =>
      ({ s with recreate_swapchain := true, previous_frame_end := some Token.now },
       { waited := false, logged_error := false })
  | FlushResult.otherError =>
      ({ s with previous_frame_end := some Token.now },
       { waited := false, logged_error := true })

/-- Environment for one frame tick: the start_frame environment, the
command buffers recorded by the render stage, and the flush outcome. -/
structure TickEnv where
  start : StartEnv
  renderCmds : List Nat
  flush : FlushResult
  deriving Repr, DecidableEq

/-- One frame tick of the per-window render protocol: acquire, and when
acquisition succeeded, render and present. When start_frame returns the
out of date error the frame is skipped and finish_frame is not called. -/
def tick (env : TickEnv) (s : Renderer) : Except Panic Renderer :=
  match start_frame env.start s with
  | Except.error p => Except.error p
  | Except.ok (s1, Except.error _) => Except.ok s1
  | Except.ok (s1, Except.ok tok) =>
      Except.ok (finish_frame env.flush (Token.thenExecute tok env.renderCmds) s1).1

/-- A sequence of frame ticks, stopping at the first panic. -/
def run_ticks (envs : List TickEnv) (s : Renderer) : Except Panic Renderer :=
  match envs with
  | [] => Except.ok s
  | e :: rest =>
      match tick e s with
      | Except.error p => Except.error p
      | Except.ok s1 => run_ticks rest s1

/-- The state of a freshly constructed Renderer as far as the frame
protocol is concerned: the previous frame end slot holds a completed
now token and the dirty flag is clear. -/
def initial_renderer (sc : Nat) (views : List DeviceImage) : Renderer :=
  { swap_chain := sc
    image_index := 0
    final_views := views
    interim_image_views := []
    recreate_swapchain := false
    previous_frame_end := some Token.now }

/-- Model of the primary command buffer builder of a frame in
examples/circle/render_pass/deferred.rs: the subpass the render pass
recording currently sits in and the executed secondary command buffers. -/
structure CmdBuilder where
  subpass : Nat
  cmds : List Nat
  deriving Repr, DecidableEq

/-- Model of struct Frame of RenderPassDeferred: the u8 pass counter
(kept as a Nat reduced modulo 256 at each increment), the stored before
future and the optional primary command buffer builder. -/
structure FrameSt where
  num_pass : Nat
  before_main_cb_future : Option Token
  command_buffer_builder : Option CmdBuilder
  deriving Repr, DecidableEq

/-- Result of one next_pass call: a drawing pass in the deferred
subpass, or the finished pass carrying the terminal future. -/
inductive Pass where
  | deferred : Pass
  | finished : Token → Pass
  deriving Repr, DecidableEq

/-- Model of RenderPassDeferred::frame: begins the render pass at
subpass 0 with an empty primary command buffer and stores the before
future; the pass counter starts at 0. -/
def render_pass_deferred_frame (before_future : Token) : FrameSt :=
  { num_pass := 0
    before_main_cb_future := some before_future
    command_buffer_builder := some { subpass := 0, cmds := [] } }

/-- Model of Frame::next_pass. The u8 counter is read and incremented
(wrapping modulo 256) first; then on 0 a drawing pass is yielded, on 1
the render pass is ended, the primary command buffer is built and
chained after the before future on the graphics queue via then_execute
(the two take plus unwrap sites panic when the options are empty), and
on any other counter value nothing is yielded. -/
def next_pass (f : FrameSt) : Except Panic (FrameSt × Option Pass) :=
  let current := f.num_pass
  let f1 : FrameSt := { f with num_pass := (f.num_pass + 1) % 256 }
  match current with
  | 0 => Except.ok (f1, some Pass.deferred)
  | 1 =>
      match f1.command_buffer_builder with
      | none => Except.error Panic.interimTargetMissing
      | some b =>
          match f1.before_main_cb_future with
          | none => Except.error Panic.emptyPreviousFrameEnd
          | some before =>
              Except.ok ({ f1 with command_buffer_builder := none,
                                   before_main_cb_future := none },
                         some (Pass.finished (Token.thenExecute before b.cmds)))
  | _ => Except.ok (f1, none)

/-- Result of the call numbered n (0 based) in a run of repeated
next_pass calls on a frame: the first n calls are performed, then the
result of the next call is returned. -/
def nth_next_pass (n : Nat) (f : FrameSt) : Except Panic (FrameSt × Option Pass) :=
  match n with
  | 0 => next_pass f
  | Nat.succ m =>
      match next_pass f with
      | Except.error p => Except.error p
      | Except.ok (f1, _) => nth_next_pass m f1

/-- Model of the state touched by exit_on_window_close_system in
src/lib.rs: the per-window pipeline sync registry (the set of window ids
holding sync data), the window id to winit id map, and the renderer map
keyed by winit id. -/
structure CloseState where
  sync_data : List Nat
  window_to_winit : List (Nat × Nat)
  renderers : List Nat
  deriving Repr, DecidableEq

/-- Observable actions emitted while handling window close events. The
removeRenderer action records both the closing window id and the winit
id whose renderer entry is removed. -/
inductive CloseAction where
  | appExit : CloseAction
  | removeSync : Nat → CloseAction
  | removeRenderer : Nat → Nat → CloseAction
  deriving Repr, DecidableEq

/-- The primary window id (WindowId::primary). -/
def primary_window_id : Nat := 0

/-- Association list lookup for the window id to winit id map. -/
def lookup_winit (l : List (Nat × Nat)) (k : Nat) : Option Nat :=
  match l with
  | [] => none
  | e :: rest => if e.1 = k then some e.2 else lookup_winit rest k

/-- The body of the event loop of exit_on_window_close_system for one
close event: on the primary window send AppExit; otherwise remove the
pipeline sync entry first, then look up the winit window and, when it
exists, remove its renderer entry. -/
def handle_close_event (s : CloseState) (eventId : Nat) :
    CloseState × List CloseAction :=
  if eventId = primary_window_id then (s, [CloseAction.appExit])
  else
    let s1 : CloseState := { s with sync_data := s.sync_data.filter (fun w => w ≠ eventId) }
    match lookup_winit s1.window_to_winit eventId with
    | none => (s1, [CloseAction.removeSync eventId])
    | some wid =>
        ({ s1 with renderers := s1.renderers.filter (fun r => r ≠ wid) },
         [CloseAction.removeSync eventId, CloseAction.removeRenderer eventId wid])

/-- Model of exit_on_window_close_system over the list of close events
read this frame, threading the state and concatenating the emitted
actions in order. -/
def exit_on_window_close_system (s : CloseState) (events : List Nat) :
    CloseState × List CloseAction :=
  match events with
  | [] => (s, [])
  | e :: rest =>
      let r1 := handle_close_event s e
      let r2 := exit_on_window_close_system r1.1 rest
      (r2.1, r1.2 ++ r2.2)

/-- Model of a winit monitor video mode. -/
structure VideoMode where
  width : Nat
  height : Nat
  refresh_rate_millihertz : Nat
  deriving Repr, DecidableEq

/-- The abs_diff helper inside get_fitting_videomode. -/
def abs_diff (a b : Nat) : Nat := if a > b then a - b else b - a

/-- The comparator of get_fitting_videomode as a total preorder: mode a
sorts no later than mode b when its width distance to the target is
smaller, or equal and its height distance smaller, or both equal and
its refresh rate at least that of b (descending refresh). -/
def fitting_le (width height : Nat) (a b : VideoMode) : Prop :=
  abs_diff a.width width < abs_diff b.width width ∨
    (abs_diff a.width width = abs_diff b.width width ∧
      (abs_diff a.height height < abs_diff b.height height ∨
        (abs_diff a.height height = abs_diff b.height height ∧
          b.refresh_rate_millihertz ≤ a.refresh_rate_millihertz)))

instance (width height : Nat) : DecidableRel (fitting_le width height) :=
  fun a b => by unfold fitting_le; infer_instance

/-- Model of get_fitting_videomode in src/vulkano_windows.rs: stable
sort of the monitor modes by the comparator and take the first element;
the unwrap on an empty mode list is modelled by Option. Rust sort_by is
a stable sort, so any stable sort of the comparator gives the same
list; insertion sort is used here because it is stable and computable. -/
def get_fitting_videomode (modes : List VideoMode) (width height : Nat) :
    Option VideoMode :=
  (List.insertionSort (fitting_le width height) modes).head?

/-- Model of a physical device type of vulkano. -/
inductive PhysDeviceType where
  | discreteGpu
  | integratedGpu
  | virtualGpu
  | cpu
  | other
  deriving Repr, DecidableEq

/-- The key used in min_by_key of VulkanoContext::new. -/
def device_type_priority : PhysDeviceType → Nat
  | PhysDeviceType.discreteGpu => 1
  | PhysDeviceType.integratedGpu => 2
  | PhysDeviceType.virtualGpu => 3
  | PhysDeviceType.cpu => 4
  | PhysDeviceType.other => 5

/-- A physical device as seen by the selection code: its type and an
identity to distinguish devices of equal type. -/
structure PhysDevice where
  id : Nat
  device_type : PhysDeviceType
  deriving Repr, DecidableEq

/-- The running minimum of Iterator::min_by_key: an element replaces
the current minimum only when its key is strictly smaller, so the first
of several equal minima is kept. -/
def min_by_key_go (key : PhysDevice → Nat) (m : PhysDevice) :
    List PhysDevice → PhysDevice
  | [] => m
  | x :: xs => min_by_key_go key (if key x < key m then x else m) xs

/-- Iterator::min_by_key over a device enumeration. -/
def min_by_key (key : PhysDevice → Nat) : List PhysDevice → Option PhysDevice
  | [] => none
  | x :: xs => some (min_by_key_go key x xs)

/-- Model of the physical device selection in VulkanoContext::new (and
identically in Renderer::new): min_by_key over the enumeration with the
device type priority as key; the trailing unwrap on an empty
enumeration is modelled by Option. -/
def select_physical_device (devices : List PhysDevice) : Option PhysDevice :=
  min_by_key (fun p => device_type_priority p.device_type) devices

theorem add_image_target_shape {s : Renderer} {k : Nat} {vs : Option (Nat × Nat)}
    {fmt : Nat} {s2 : Renderer} (h : add_image_target s k vs fmt = Except.ok s2) :
    ∃ m, s2 = { s with interim_image_views := m } := by
  unfold add_image_target at h
  cases vs with
  | some sz =>
      simp only [Except.ok.injEq] at h
      exact ⟨_, h.symm⟩
  | none =>
      unfold final_image_size at h
      cases hv : s.final_views with
      | nil => rw [hv] at h; simp at h
      | cons v rest =>
          rw [hv] at h
          simp only [Except.ok.injEq] at h
          exact ⟨_, h.symm⟩

theorem add_image_target_error {s : Renderer} {k : Nat} {vs : Option (Nat × Nat)}
    {fmt : Nat} {p : Panic} (h : add_image_target s k vs fmt = Except.error p) :
    p = Panic.finalViewsEmpty := by
  unfold add_image_target at h
  cases vs with
  | some sz => simp at h
  | none =>
      unfold final_image_size at h
      cases hv : s.final_views with
      | nil => rw [hv] at h; simp only [Except.error.injEq] at h; exact h.symm
      | cons v rest => rw [hv] at h; simp at h

theorem resize_interim_targets_shape :
    ∀ (keys : List Nat) (s s2 : Renderer),
      resize_interim_targets keys s = Except.ok s2 →
      ∃ m, s2 = { s with interim_image_views := m } := by
  intro keys
  induction keys with
  | nil =>
      intro s s2 h
      unfold resize_interim_targets at h
      simp only [Except.ok.injEq] at h
      exact ⟨s.interim_image_views, h.symm⟩
  | cons i rest ih =>
      intro s s2 h
      unfold resize_interim_targets at h
      cases hg : get_image_target s i with
      | error p => rw [hg] at h; simp at h
      | ok img =>
          rw [hg] at h
          dsimp only at h
          cases ha : add_image_target (remove_image_target s i) i none img.format with
          | error p => rw [ha] at h; simp at h
          | ok smid =>
              rw [ha] at h
              dsimp only at h
              obtain ⟨m1, hm1⟩ := add_image_target_shape ha
              obtain ⟨m2, hm2⟩ := ih smid s2 h
              subst hm1
              refine ⟨m2, ?_⟩
              rw [hm2]
              rfl

theorem resize_interim_targets_error :
    ∀ (keys : List Nat) (s : Renderer) (p : Panic),
      resize_interim_targets keys s = Except.error p →
      p = Panic.interimTargetMissing ∨ p = Panic.finalViewsEmpty := by
  intro keys
  induction keys with
  | nil => intro s p h; unfold resize_interim_targets at h; simp at h
  | cons i rest ih =>
      intro s p h
      unfold resize_interim_targets at h
      cases hg : get_image_target s i with
      | error q =>
          rw [hg] at h
          simp only [Except.error.injEq] at h
          subst h
          unfold get_image_target at hg
          cases hl : lookup_interim s.interim_image_views i with
          | none => rw [hl] at hg; simp only [Except.error.injEq] at hg; left; exact hg.symm
          | some v => rw [hl] at hg; simp at hg
      | ok img =>
          rw [hg] at h
          dsimp only at h
          cases ha : add_image_target (remove_image_target s i) i none img.format with
          | error q =>
              rw [ha] at h
              dsimp only at h
              simp only [Except.error.injEq] at h
              subst h
              right
              exact add_image_target_error ha
          | ok smid => rw [ha] at h; dsimp only at h; exact ih smid p h

theorem recreate_ok_fields {env : RecreateResult} {s s2 : Renderer}
    (h : recreate_swapchain_and_views env s = Except.ok s2) :
    s2.previous_frame_end = s.previous_frame_end ∧ s2.image_index = s.image_index := by
  unfold recreate_swapchain_and_views at h
  cases env with
  | unsupportedDimensions =>
      simp only [Except.ok.injEq] at h
      subst h
      exact ⟨rfl, rfl⟩
  | otherError => simp at h
  | ok newSc newImages =>
      simp only at h
      cases hr : resize_interim_targets
          (((({ s with swap_chain := newSc, final_views := newImages } : Renderer)).interim_image_views.filter
            (fun e => e.2.2)).map (fun e => e.1))
          { s with swap_chain := newSc, final_views := newImages } with
      | error p => rw [hr] at h; simp at h
      | ok smid =>
          rw [hr] at h
          simp only [Except.ok.injEq] at h
          subst h
          obtain ⟨m, hm⟩ := resize_interim_targets_shape _ _ _ hr
          subst hm
          exact ⟨rfl, rfl⟩

theorem recreate_error_kind {env : RecreateResult} {s : Renderer} {p : Panic}
    (h : recreate_swapchain_and_views env s = Except.error p) :
    p = Panic.recreateFatal ∨ p = Panic.interimTargetMissing ∨ p = Panic.finalViewsEmpty := by
  unfold recreate_swapchain_and_views at h
  cases env with
  | unsupportedDimensions => simp at h
  | otherError => simp only [Except.error.injEq] at h; left; exact h.symm
  | ok newSc newImages =>
      simp only at h
      cases hr : resize_interim_targets
          (((({ s with swap_chain := newSc, final_views := newImages } : Renderer)).interim_image_views.filter
            (fun e => e.2.2)).map (fun e => e.1))
          { s with swap_chain := newSc, final_views := newImages } with
      | error q =>
          rw [hr] at h
          simp only [Except.error.injEq] at h
          subst h
          right
          exact resize_interim_targets_error _ _ _ hr
      | ok smid => rw [hr] at h; simp at h

theorem start_frame_not_empty_panic {env : StartEnv} {s : Renderer}
    (hs : s.previous_frame_end.isSome) :
    start_frame env s ≠ Except.error Panic.emptyPreviousFrameEnd := by
  obtain ⟨prev, hp⟩ := Option.isSome_iff_exists.mp hs
  unfold start_frame
  by_cases hflag : s.recreate_swapchain = true
  · rw [if_pos hflag]
    cases hr : recreate_swapchain_and_views env.recreate s with
    | error p =>
        dsimp only
        intro hcontra
        injection hcontra with hc
        rcases recreate_error_kind hr with h1 | h1 | h1 <;> rw [h1] at hc <;> simp at hc
    | ok s1 =>
        dsimp only
        have hprev : s1.previous_frame_end = some prev := by
          rw [(recreate_ok_fields hr).1, hp]
        cases env.acquire with
        | outOfDate => simp
        | otherError => simp
        | ok n subopt => cases subopt <;> simp [hprev]
  · rw [if_neg hflag]
    dsimp only
    cases env.acquire with
    | outOfDate => simp
    | otherError => simp
    | ok n subopt => cases subopt <;> simp [hp]

theorem start_frame_slot_after {env : StartEnv} {s s1 : Renderer}
    {r : Except AcquireErr Token} (h : start_frame env s = Except.ok (s1, r)) :
    (r = Except.error AcquireErr.outOfDate → s1.previous_frame_end = s.previous_frame_end) := by
  intro hr
  subst hr
  unfold start_frame at h
  by_cases hflag : s.recreate_swapchain = true
  · rw [if_pos hflag] at h
    cases hrc : recreate_swapchain_and_views env.recreate s with
    | error p => rw [hrc] at h; exact absurd h (by simp)
    | ok sr =>
        rw [hrc] at h
        dsimp only at h
        cases hae : env.acquire with
        | outOfDate =>
            rw [hae] at h
            simp only [Except.ok.injEq, Prod.mk.injEq] at h
            rw [← h.1]
            exact (recreate_ok_fields hrc).1
        | otherError => rw [hae] at h; exact absurd h (by simp)
        | ok n subopt =>
            rw [hae] at h
            cases subopt
            all_goals cases hp : sr.previous_frame_end
            all_goals simp [hp] at h
  · rw [if_neg hflag] at h
    dsimp only at h
    cases hae : env.acquire with
    | outOfDate =>
        rw [hae] at h
        simp only [Except.ok.injEq, Prod.mk.injEq] at h
        rw [← h.1]
    | otherError => rw [hae] at h; exact absurd h (by simp)
    | ok n subopt =>
        rw [hae] at h
        cases subopt
        all_goals cases hp : s.previous_frame_end
        all_goals simp [hp] at h

theorem finish_frame_slot_some (flush : FlushResult) (t : Token) (s : Renderer) :
    ((finish_frame flush t s).1.previous_frame_end).isSome := by
  cases flush <;> simp [finish_frame]

theorem tick_slot_invariant {env : TickEnv} {s : Renderer}
    (hs : s.previous_frame_end.isSome) :
    tick env s ≠ Except.error Panic.emptyPreviousFrameEnd ∧
      (∀ s2, tick env s = Except.ok s2 → s2.previous_frame_end.isSome) := by
  unfold tick
  cases hsf : start_frame env.start s with
  | error p =>
      constructor
      · intro hcontra
        simp only [Except.error.injEq] at hcontra
        subst hcontra
        exact start_frame_not_empty_panic hs hsf
      · intro s2 h; simp at h
  | ok r =>
      obtain ⟨s1, res⟩ := r
      cases res with
      | error e =>
          constructor
          · simp
          · intro s2 h
            simp only [Except.ok.injEq] at h
            subst h
            cases e
            have := start_frame_slot_after hsf rfl
            rw [this]
            exact hs
      | ok tok =>
          constructor
          · simp
          · intro s2 h
            simp only [Except.ok.injEq] at h
            subst h
            exact finish_frame_slot_some _ _ _

/-- C1: in every alternating acquire and present sequence the previous
frame end slot is never read while empty: starting from any state whose
slot is non-empty, a run of frame ticks never hits the take unwrap panic
and ends with a non-empty slot, and every finish_frame path (success,
out of date, any other flush error) restores the slot to a non-empty
token before returning. -/
theorem C1_previous_frame_end_never_empty :
    ∀ (envs : List TickEnv) (s : Renderer), s.previous_frame_end.isSome →
      (run_ticks envs s ≠ Except.error Panic.emptyPreviousFrameEnd ∧
        (∀ s2, run_ticks envs s = Except.ok s2 → s2.previous_frame_end.isSome)) ∧
      (∀ (flush : FlushResult) (t : Token) (s3 : Renderer),
        ((finish_frame flush t s3).1.previous_frame_end).isSome) := by
  intro envs
  induction envs with
  | nil =>
      intro s hs
      refine ⟨⟨by simp [run_ticks], ?_⟩, fun flush t s3 => finish_frame_slot_some flush t s3⟩
      intro s2 h
      unfold run_ticks at h
      simp only [Except.ok.injEq] at h
      subst h
      exact hs
  | cons e rest ih =>
      intro s hs
      refine ⟨⟨?_, ?_⟩, fun flush t s3 => finish_frame_slot_some flush t s3⟩
      · unfold run_ticks
        cases ht : tick e s with
        | error p =>
            intro hcontra
            simp only [Except.error.injEq] at hcontra
            subst hcontra
            exact (tick_slot_invariant hs).1 ht
        | ok s1 =>
            have hs1 := (tick_slot_invariant hs).2 s1 ht
            exact ((ih s1 hs1).1).1
      · intro s2 h
        unfold run_ticks at h
        cases ht : tick e s with
        | error p => rw [ht] at h; simp at h
        | ok s1 =>
            rw [ht] at h
            have hs1 := (tick_slot_invariant hs).2 s1 ht
            exact ((ih s1 hs1).1).2 s2 h

/-- Witness for C1 at a concrete one-tick run from a fresh renderer. -/
theorem C1_witness :
    (initial_renderer 0 [⟨1, 1, 0⟩]).previous_frame_end.isSome = true ∧
      run_ticks
          [⟨⟨RecreateResult.unsupportedDimensions, AcquireResult.ok 0 false⟩, [], FlushResult.ok true⟩]
          (initial_renderer 0 [⟨1, 1, 0⟩]) ≠
        Except.error Panic.emptyPreviousFrameEnd :=
  ⟨by decide,
    ((C1_previous_frame_end_never_empty
        [⟨⟨RecreateResult.unsupportedDimensions, AcquireResult.ok 0 false⟩, [], FlushResult.ok true⟩]
        (initial_renderer 0 [⟨1, 1, 0⟩]) (by decide)).1).1⟩

/-- C2 amended: for a renderer whose dirty flag is clear, start_frame on
an out of date signal sets the dirty flag and returns the error without
acquiring, leaving image_index and the previous frame end slot
unchanged; on a suboptimal signal it sets the dirty flag but the frame
proceeds (the image is acquired, image_index is updated and the joined
token is returned, recreation deferred to the next tick); any other
acquisition failure is fatal. -/
theorem C2_amended_acquire_paths :
    ∀ (env : StartEnv) (s : Renderer), s.recreate_swapchain = false →
      (env.acquire = AcquireResult.outOfDate →
        start_frame env s =
          Except.ok ({ s with recreate_swapchain := true }, Except.error AcquireErr.outOfDate)) ∧
      (∀ n prev, env.acquire = AcquireResult.ok n true → s.previous_frame_end = some prev →
        start_frame env s =
          Except.ok
            ({ s with recreate_swapchain := true, image_index := n, previous_frame_end := none },
             Except.ok (Token.join prev (Token.acquireFuture n)))) ∧
      (env.acquire = AcquireResult.otherError →
        start_frame env s = Except.error Panic.acquireFatal) := by
  intro env s hflag
  refine ⟨?_, ?_, ?_⟩
  · intro ha
    unfold start_frame
    rw [hflag, ha]
    simp
  · intro n prev ha hprev
    unfold start_frame
    rw [hflag, ha]
    simp [hprev]
  · intro ha
    unfold start_frame
    rw [hflag, ha]
    simp

/-- Counterexample to C2 as stated: at a concrete suboptimal
acquisition the frame is not skipped — start_frame acquires the image,
updates image_index and returns the joined token (while setting the
dirty flag), instead of skipping the current frame. -/
theorem C2_counterexample_suboptimal_not_skipped :
    start_frame ⟨RecreateResult.unsupportedDimensions, AcquireResult.ok 1 true⟩
        (initial_renderer 0 [⟨640, 480, 7⟩]) =
      Except.ok
        ({ initial_renderer 0 [⟨640, 480, 7⟩] with
            recreate_swapchain := true, image_index := 1, previous_frame_end := none },
         Except.ok (Token.join Token.now (Token.acquireFuture 1))) := by decide

/-- Witness for C2 amended at a concrete out of date acquisition. -/
theorem C2_witness :
    (initial_renderer 0 [⟨1, 1, 0⟩]).recreate_swapchain = false ∧
      start_frame ⟨RecreateResult.unsupportedDimensions, AcquireResult.outOfDate⟩
          (initial_renderer 0 [⟨1, 1, 0⟩]) =
        Except.ok ({ initial_renderer 0 [⟨1, 1, 0⟩] with recreate_swapchain := true },
                   Except.error AcquireErr.outOfDate) :=
  ⟨by decide,
    (C2_amended_acquire_paths ⟨RecreateResult.unsupportedDimensions, AcquireResult.outOfDate⟩
        (initial_renderer 0 [⟨1, 1, 0⟩]) (by decide)).1 rfl⟩

/-- C3: finish_frame on an out of date flush sets the dirty flag and
resets the previous frame end to an already completed now token with
the error swallowed; any other flush failure is logged and likewise
resets the slot to a completed token; on success the resulting fence
future becomes the new previous frame end; in every case the slot is
restored to a non-empty token and no error is propagated. -/
theorem C3_finish_frame_error_handling :
    ∀ (flush : FlushResult) (t : Token) (s : Renderer),
      ((finish_frame flush t s).1.previous_frame_end).isSome ∧
      (flush = FlushResult.outOfDate →
        finish_frame flush t s =
          ({ s with recreate_swapchain := true, previous_frame_end := some Token.now },
           { waited := false, logged_error := false })) ∧
      (flush = FlushResult.otherError →
        finish_frame flush t s =
          ({ s with previous_frame_end := some Token.now },
           { waited := false, logged_error := true })) ∧
      (∀ w, flush = FlushResult.ok w →
        (finish_frame flush t s).1.previous_frame_end =
          some (Token.presentFence t s.image_index)) := by
  intro flush t s
  refine ⟨finish_frame_slot_some flush t s, ?_, ?_, ?_⟩
  · intro h; subst h; rfl
  · intro h; subst h; rfl
  · intro w h; subst h; rfl

/-- Witness for C3 at concrete inputs covering each hypothesis. -/
theorem C3_witness :
    finish_frame FlushResult.outOfDate Token.now (initial_renderer 0 []) =
        ({ initial_renderer 0 [] with
            recreate_swapchain := true, previous_frame_end := some Token.now },
         { waited := false, logged_error := false }) ∧
      finish_frame FlushResult.otherError Token.now (initial_renderer 0 []) =
        ({ initial_renderer 0 [] with previous_frame_end := some Token.now },
         { waited := false, logged_error := true }) ∧
      (finish_frame (FlushResult.ok true) Token.now (initial_renderer 0 [])).1.previous_frame_end =
        some (Token.presentFence Token.now 0) :=
  ⟨(C3_finish_frame_error_handling FlushResult.outOfDate Token.now
      (initial_renderer 0 [])).2.1 rfl,
    (C3_finish_frame_error_handling FlushResult.otherError Token.now
      (initial_renderer 0 [])).2.2.1 rfl,
    (C3_finish_frame_error_handling (FlushResult.ok true) Token.now
      (initial_renderer 0 [])).2.2.2 true rfl⟩

/-- C6 amended: finish_frame takes no blocking toggle — after a
successful flush it always waits on the fence before returning (a
workaround for a driver out of memory issue), and the fence future
becomes the new previous frame end; on flush failure no wait happens
and the slot is reset to a completed now token. -/
theorem C6_amended_finish_frame_always_waits :
    ∀ (flush : FlushResult) (t : Token) (s : Renderer),
      (∀ w, flush = FlushResult.ok w →
        (finish_frame flush t s).2.waited = true ∧
          (finish_frame flush t s).1.previous_frame_end =
            some (Token.presentFence t s.image_index)) ∧
      (flush = FlushResult.outOfDate ∨ flush = FlushResult.otherError →
        (finish_frame flush t s).2.waited = false ∧
          (finish_frame flush t s).1.previous_frame_end = some Token.now) := by
  intro flush t s
  constructor
  · intro w h; subst h; exact ⟨rfl, rfl⟩
  · intro h
    cases h with
    | inl h => subst h; exact ⟨rfl, rfl⟩
    | inr h => subst h; exact ⟨rfl, rfl⟩

/-- Counterexample to C6 as stated: at a concrete successful present
with no blocking requested the caller is nevertheless blocked —
finish_frame waits on the fence unconditionally, because the code has
no block_until_complete argument at all. -/
theorem C6_counterexample_unconditional_wait :
    (finish_frame (FlushResult.ok true) Token.now
        (initial_renderer 0 [⟨640, 480, 7⟩])).2.waited = true := by decide

/-- Witness for C6 amended at a concrete successful flush. -/
theorem C6_witness :
    (finish_frame (FlushResult.ok false) Token.now (initial_renderer 0 [])).2.waited = true ∧
      (finish_frame (FlushResult.ok false) Token.now
          (initial_renderer 0 [])).1.previous_frame_end =
        some (Token.presentFence Token.now 0) :=
  (C6_amended_finish_frame_always_waits (FlushResult.ok false) Token.now
      (initial_renderer 0 [])).1 false rfl

/-- C9: swapchain recreation with unsupported (for example zero area)
dimensions is logged and skipped — the state, hence the swapchain, the
image view list, the image index and the still-set dirty flag, is
returned unchanged and no panic occurs — while any other recreation
failure is fatal. -/
theorem C9_recreate_unsupported_skips :
    ∀ s : Renderer,
      recreate_swapchain_and_views RecreateResult.unsupportedDimensions s = Except.ok s ∧
      recreate_swapchain_and_views RecreateResult.otherError s =
        Except.error Panic.recreateFatal := by
  intro s
  exact ⟨rfl, rfl⟩

/-- The exhausted frame state after the render pass has been ended and
the before future consumed: only the pass counter remains. -/
def exhausted_frame (k : Nat) : FrameSt :=
  { num_pass := k, before_main_cb_future := none, command_buffer_builder := none }

theorem next_pass_exhausted (m : Nat) :
    next_pass (exhausted_frame (m + 2)) =
      Except.ok (exhausted_frame ((m + 3) % 256), none) := rfl

theorem nth_next_pass_exhausted :
    ∀ (m k : Nat), 2 ≤ k → k + m ≤ 255 →
      nth_next_pass m (exhausted_frame k) =
        Except.ok (exhausted_frame ((k + m + 1) % 256), none) := by
  intro m
  induction m with
  | zero =>
      intro k hk2 hk
      obtain ⟨j, rfl⟩ : ∃ j, k = j + 2 := ⟨k - 2, by omega⟩
      unfold nth_next_pass
      rw [next_pass_exhausted j]
  | succ m ih =>
      intro k hk2 hk
      obtain ⟨j, rfl⟩ : ∃ j, k = j + 2 := ⟨k - 2, by omega⟩
      unfold nth_next_pass
      rw [next_pass_exhausted j]
      have h1 : (j + 3) % 256 = j + 3 := by omega
      rw [h1]
      dsimp only
      rw [ih (j + 3) (by omega) (by omega)]
      have h3 : j + 3 + m + 1 = j + 2 + (m + 1) + 1 := by omega
      rw [h3]

/-- C4 amended: for a single subpass frame, next_pass on call 0 yields
the drawing (deferred) pass with the command buffer recording sitting in
subpass 0; on call 1 it ends the render pass, builds the primary command
buffer, chains it after the before token via then_execute on the
graphics queue and yields the finished pass carrying the resulting
token; calls 2 through 255 yield nothing; at call 256 the u8 pass
counter wraps around, so the yields-nothing behaviour does not extend
past call 255. -/
theorem C4_amended_pass_sequence :
    ∀ (before : Token),
      (render_pass_deferred_frame before).command_buffer_builder =
          some { subpass := 0, cmds := [] } ∧
      next_pass (render_pass_deferred_frame before) =
        Except.ok ({ render_pass_deferred_frame before with num_pass := 1 },
                   some Pass.deferred) ∧
      (∀ (f : FrameSt) (b : CmdBuilder) (t : Token),
        f.num_pass = 1 → f.command_buffer_builder = some b →
        f.before_main_cb_future = some t →
        next_pass f =
          Except.ok (exhausted_frame 2,
                     some (Pass.finished (Token.thenExecute t b.cmds)))) ∧
      (∀ n, 2 ≤ n → n ≤ 255 →
        (nth_next_pass n (render_pass_deferred_frame before)).map (fun r => r.2) =
          Except.ok none) := by
  intro before
  refine ⟨rfl, rfl, ?_, ?_⟩
  · intro f b t h1 h2 h3
    unfold next_pass
    rw [h1]
    dsimp only
    rw [h2, h3]
    rfl
  · intro n hn2 hn255
    obtain ⟨m, rfl⟩ : ∃ m, n = m + 2 := ⟨n - 2, by omega⟩
    show (nth_next_pass (m + 2) (render_pass_deferred_frame before)).map (fun r => r.2) =
      Except.ok none
    have step0 : next_pass (render_pass_deferred_frame before) =
        Except.ok ({ render_pass_deferred_frame before with num_pass := 1 },
                   some Pass.deferred) := rfl
    have step1 : next_pass ({ render_pass_deferred_frame before with num_pass := 1 }) =
        Except.ok (exhausted_frame 2,
                   some (Pass.finished (Token.thenExecute before []))) := rfl
    unfold nth_next_pass
    rw [step0]
    dsimp only
    unfold nth_next_pass
    rw [step1]
    dsimp only
    rw [nth_next_pass_exhausted m 2 (by omega) (by omega)]
    rfl

/-- Counterexample to C4 as stated: the 257th call (call number 256) on
a fresh single subpass frame yields a drawing pass again, not nothing,
because the u8 pass counter wraps around modulo 256. -/
theorem C4_counterexample_wraparound_call_256 :
    (nth_next_pass 256 (render_pass_deferred_frame Token.now)).map (fun r => r.2) =
      Except.ok (some Pass.deferred) := by decide

/-- Witness for C4 amended: the finished-pass case at a concrete frame
and the yields-nothing case at concrete call number 2. -/
theorem C4_witness :
    next_pass { num_pass := 1, before_main_cb_future := some Token.now,
                command_buffer_builder := some { subpass := 0, cmds := [5] } } =
        Except.ok (exhausted_frame 2,
                   some (Pass.finished (Token.thenExecute Token.now [5]))) ∧
      (nth_next_pass 2 (render_pass_deferred_frame Token.now)).map (fun r => r.2) =
        Except.ok none :=
  ⟨(C4_amended_pass_sequence Token.now).2.2.1
      { num_pass := 1, before_main_cb_future := some Token.now,
        command_buffer_builder := some { subpass := 0, cmds := [5] } }
      { subpass := 0, cmds := [5] } Token.now rfl rfl rfl,
    (C4_amended_pass_sequence Token.now).2.2.2 2 (by decide) (by decide)⟩

theorem handle_close_event_shape (s : CloseState) (e : Nat) :
    (handle_close_event s e).2 = [CloseAction.appExit] ∨
    (handle_close_event s e).2 = [CloseAction.removeSync e] ∨
    ∃ wid, (handle_close_event s e).2 =
      [CloseAction.removeSync e, CloseAction.removeRenderer e wid] := by
  unfold handle_close_event
  by_cases he : e = primary_window_id
  · rw [if_pos he]
    exact Or.inl rfl
  · rw [if_neg he]
    dsimp only
    cases lookup_winit s.window_to_winit e with
    | none => exact Or.inr (Or.inl rfl)
    | some wid => exact Or.inr (Or.inr ⟨wid, rfl⟩)

/-- C5: in every run of the window close system, whenever a renderer
entry is removed for a closing window, the pipeline sync registry entry
of that window has already been removed at a strictly earlier point of
the action trace, so no sync token outlives its renderer and swapchain. -/
theorem C5_sync_removed_before_renderer :
    ∀ (events : List Nat) (s : CloseState) (j w wid : Nat),
      ((exit_on_window_close_system s events).2)[j]? =
          some (CloseAction.removeRenderer w wid) →
      ∃ i, i < j ∧
        ((exit_on_window_close_system s events).2)[i]? =
          some (CloseAction.removeSync w) := by
  intro events
  induction events with
  | nil =>
      intro s j w wid h
      simp [exit_on_window_close_system] at h
  | cons e rest ih =>
      intro s j w wid h
      have hsplit : (exit_on_window_close_system s (e :: rest)).2 =
          (handle_close_event s e).2 ++
            (exit_on_window_close_system (handle_close_event s e).1 rest).2 := rfl
      rw [hsplit] at h ⊢
      rcases handle_close_event_shape s e with hs | hs | ⟨wid2, hs⟩
      · rw [hs] at h ⊢
        rcases Nat.lt_or_ge j 1 with hj | hj
        · interval_cases j
          simp at h
        · rw [List.getElem?_append_right (by simpa using hj)] at h
          obtain ⟨i, hi, hival⟩ := ih _ _ _ _ h
          have hi2 : i < j - 1 := by simpa using hi
          refine ⟨i + 1, by omega, ?_⟩
          rw [List.getElem?_append_right (by simp)]
          simpa using hival
      · rw [hs] at h ⊢
        rcases Nat.lt_or_ge j 1 with hj | hj
        · interval_cases j
          simp at h
        · rw [List.getElem?_append_right (by simpa using hj)] at h
          obtain ⟨i, hi, hival⟩ := ih _ _ _ _ h
          have hi2 : i < j - 1 := by simpa using hi
          refine ⟨i + 1, by omega, ?_⟩
          rw [List.getElem?_append_right (by simp)]
          simpa using hival
      · rw [hs] at h ⊢
        rcases Nat.lt_or_ge j 2 with hj | hj
        · interval_cases j
          · simp at h
          · have h1 : CloseAction.removeRenderer e wid2 =
                CloseAction.removeRenderer w wid := by simpa using h
            refine ⟨0, by omega, ?_⟩
            injection h1 with he2 hwid
            subst he2
            simp
        · rw [List.getElem?_append_right (by simpa using hj)] at h
          obtain ⟨i, hi, hival⟩ := ih _ _ _ _ h
          have hi2 : i < j - 2 := by simpa using hi
          refine ⟨i + 2, by omega, ?_⟩
          rw [List.getElem?_append_right (by simp)]
          simpa using hival

/-- Witness for C5 at a concrete run: one secondary window with a
renderer, one close event for it. -/
theorem C5_witness :
    ((exit_on_window_close_system ⟨[5], [(5, 77)], [77]⟩ [5]).2)[1]? =
        some (CloseAction.removeRenderer 5 77) ∧
      ∃ i, i < 1 ∧
        ((exit_on_window_close_system ⟨[5], [(5, 77)], [77]⟩ [5]).2)[i]? =
          some (CloseAction.removeSync 5) :=
  ⟨by decide,
    C5_sync_removed_before_renderer [5] ⟨[5], [(5, 77)], [77]⟩ 1 5 77 (by decide)⟩

instance (width height : Nat) : IsTotal VideoMode (fitting_le width height) :=
  ⟨by intro a b; unfold fitting_le; omega⟩

instance (width height : Nat) : IsTrans VideoMode (fitting_le width height) :=
  ⟨by intro a b c hab hbc; unfold fitting_le at hab hbc ⊢; omega⟩

theorem fitting_le_refl (width height : Nat) (m : VideoMode) :
    fitting_le width height m m := by
  unfold fitting_le; omega

/-- C7: get_fitting_videomode returns a mode of the list that is
minimal for the tie-break order (ascending width distance, then
ascending height distance, then descending refresh rate), returns
nothing exactly on an empty mode list (the panic case), and on the two
concrete example mode sets picks the exact-size higher-refresh mode and
the exact 1920x1080 mode respectively. -/
theorem C7_get_fitting_videomode_spec :
    (∀ (modes : List VideoMode) (width height : Nat) (m : VideoMode),
      get_fitting_videomode modes width height = some m →
      m ∈ modes ∧ ∀ m2 ∈ modes, fitting_le width height m m2) ∧
    (∀ width height : Nat,
      get_fitting_videomode ([] : List VideoMode) width height = none) ∧
    get_fitting_videomode [⟨800, 600, 60⟩, ⟨800, 600, 144⟩, ⟨1920, 1080, 60⟩] 800 600 =
      some ⟨800, 600, 144⟩ ∧
    get_fitting_videomode [⟨800, 600, 60⟩, ⟨800, 600, 144⟩, ⟨1920, 1080, 60⟩] 1920 1080 =
      some ⟨1920, 1080, 60⟩ := by
  refine ⟨?_, ?_, by decide, by decide⟩
  · intro modes width height m h
    unfold get_fitting_videomode at h
    cases hsort : List.insertionSort (fitting_le width height) modes with
    | nil => rw [hsort] at h; simp at h
    | cons x rest =>
        rw [hsort] at h
        simp only [List.head?_cons, Option.some.injEq] at h
        subst h
        have hperm := List.perm_insertionSort (fitting_le width height) modes
        rw [hsort] at hperm
        have hsorted := List.sorted_insertionSort (fitting_le width height) modes
        rw [hsort] at hsorted
        have hrel := (List.sorted_cons.mp hsorted).1
        refine ⟨hperm.subset (List.mem_cons_self _ _), ?_⟩
        intro m2 hm2
        have hmem := hperm.symm.subset hm2
        rcases List.mem_cons.mp hmem with h2 | h2
        · rw [h2]
          exact fitting_le_refl width height _
        · exact hrel m2 h2
  · intro width height
    rfl

/-- Witness for C7 at a concrete mode list with the hypotheses
discharged by evaluation. -/
theorem C7_witness :
    ⟨1024, 768, 75⟩ ∈ [(⟨1024, 768, 75⟩ : VideoMode), ⟨640, 480, 60⟩] ∧
      ∀ m2 ∈ [(⟨1024, 768, 75⟩ : VideoMode), ⟨640, 480, 60⟩],
        fitting_le 1000 700 ⟨1024, 768, 75⟩ m2 :=
  C7_get_fitting_videomode_spec.1 [⟨1024, 768, 75⟩, ⟨640, 480, 60⟩] 1000 700
    ⟨1024, 768, 75⟩ (by decide)

theorem min_by_key_go_spec (key : PhysDevice → Nat) :
    ∀ (xs : List PhysDevice) (m : PhysDevice),
      (min_by_key_go key m xs = m ∧ ∀ x ∈ xs, key m ≤ key x) ∨
      (key (min_by_key_go key m xs) < key m ∧
        ∃ (i : Nat) (x : PhysDevice), xs[i]? = some x ∧ min_by_key_go key m xs = x ∧
          (∀ (j : Nat) (y : PhysDevice), j < i → xs[j]? = some y → key x < key y) ∧
          (∀ y ∈ xs, key x ≤ key y)) := by
  intro xs
  induction xs with
  | nil => intro m; left; exact ⟨rfl, by simp⟩
  | cons x rest ih =>
      intro m
      by_cases hx : key x < key m
      · have hgo : min_by_key_go key m (x :: rest) = min_by_key_go key x rest := by
          simp only [min_by_key_go, if_pos hx]
        rcases ih x with ⟨heq, hall⟩ | ⟨hlt, i, z, hiz, heq, hbefore, hall⟩
        · right
          rw [hgo, heq]
          refine ⟨hx, 0, x, by simp, rfl, ?_, ?_⟩
          · intro j y hj hjy; omega
          · intro y hy
            rcases List.mem_cons.mp hy with h2 | h2
            · rw [h2]
            · exact hall y h2
        · rw [heq] at hlt
          have hzm : key z < key m := lt_trans hlt hx
          right
          rw [hgo, heq]
          refine ⟨hzm, i + 1, z, by simpa using hiz, rfl, ?_, ?_⟩
          · intro j y hj hjy
            cases j with
            | zero =>
                simp only [List.getElem?_cons_zero, Option.some.injEq] at hjy
                rw [← hjy]
                exact hlt
            | succ j2 =>
                simp only [List.getElem?_cons_succ] at hjy
                exact hbefore j2 y (by omega) hjy
          · intro y hy
            rcases List.mem_cons.mp hy with h2 | h2
            · rw [h2]
              exact le_of_lt hlt
            · exact hall y h2
      · have hgo : min_by_key_go key m (x :: rest) = min_by_key_go key m rest := by
          simp only [min_by_key_go, if_neg hx]
        rcases ih m with ⟨heq, hall⟩ | ⟨hlt, i, z, hiz, heq, hbefore, hall⟩
        · left
          rw [hgo, heq]
          refine ⟨rfl, ?_⟩
          intro y hy
          rcases List.mem_cons.mp hy with h2 | h2
          · rw [h2]; omega
          · exact hall y h2
        · rw [heq] at hlt
          right
          rw [hgo, heq]
          refine ⟨hlt, i + 1, z, by simpa using hiz, rfl, ?_, ?_⟩
          · intro j y hj hjy
            cases j with
            | zero =>
                simp only [List.getElem?_cons_zero, Option.some.injEq] at hjy
                rw [← hjy]
                omega
            | succ j2 =>
                simp only [List.getElem?_cons_succ] at hjy
                exact hbefore j2 y (by omega) hjy
          · intro y hy
            rcases List.mem_cons.mp hy with h2 | h2
            · rw [h2]; omega
            · exact hall y h2

/-- C8: physical device selection returns nothing exactly on an empty
enumeration (the unwrap panic case) and otherwise returns a device of
the enumeration whose tier priority (discrete 1, integrated 2, virtual
3, cpu 4, other 5) is minimal — so no lower-tier device is ever picked
when a higher-tier one is enumerated — and which is the first device of
that minimal tier in enumeration order. -/
theorem C8_select_physical_device_spec :
    (∀ devices, select_physical_device devices = none ↔ devices = []) ∧
    (∀ devices d, select_physical_device devices = some d →
      d ∈ devices ∧
      (∀ e ∈ devices,
        device_type_priority d.device_type ≤ device_type_priority e.device_type) ∧
      ∃ (i : Nat), devices[i]? = some d ∧
        ∀ (j : Nat) (y : PhysDevice), j < i → devices[j]? = some y →
          device_type_priority d.device_type < device_type_priority y.device_type) := by
  constructor
  · intro devices
    cases devices with
    | nil => simp [select_physical_device, min_by_key]
    | cons x xs => simp [select_physical_device, min_by_key]
  · intro devices d h
    cases devices with
    | nil => simp [select_physical_device, min_by_key] at h
    | cons x xs =>
        unfold select_physical_device min_by_key at h
        simp only [Option.some.injEq] at h
        rcases min_by_key_go_spec (fun p => device_type_priority p.device_type) xs x with
          ⟨heq, hall⟩ | ⟨hlt, i, z, hiz, heq, hbefore, hall⟩
        · rw [heq] at h
          subst h
          refine ⟨List.mem_cons_self _ _, ?_, 0, by simp, ?_⟩
          · intro e he
            rcases List.mem_cons.mp he with h2 | h2
            · rw [h2]
            · exact hall e h2
          · intro j y hj hjy; omega
        · rw [heq] at h hlt
          subst h
          refine ⟨List.mem_cons_of_mem x (List.getElem?_mem hiz), ?_, i + 1,
              by simpa using hiz, ?_⟩
          · intro e he
            rcases List.mem_cons.mp he with h2 | h2
            · rw [h2]
              exact le_of_lt hlt
            · exact hall e h2
          · intro j y hj hjy
            cases j with
            | zero =>
                simp only [List.getElem?_cons_zero, Option.some.injEq] at hjy
                rw [← hjy]
                exact hlt
            | succ j2 =>
                simp only [List.getElem?_cons_succ] at hjy
                exact hbefore j2 y (by omega) hjy

/-- Witness for C8 at a concrete enumeration: an integrated device
enumerated first, then two discrete devices; the first discrete one is
selected. -/
theorem C8_witness :
    (select_physical_device [] = none ↔ ([] : List PhysDevice) = []) ∧
      (⟨1, PhysDeviceType.discreteGpu⟩ : PhysDevice) ∈
        [(⟨0, PhysDeviceType.integratedGpu⟩ : PhysDevice),
          ⟨1, PhysDeviceType.discreteGpu⟩, ⟨2, PhysDeviceType.discreteGpu⟩] :=
  ⟨C8_select_physical_device_spec.1 [],
    (C8_select_physical_device_spec.2
        [⟨0, PhysDeviceType.integratedGpu⟩, ⟨1, PhysDeviceType.discreteGpu⟩,
          ⟨2, PhysDeviceType.discreteGpu⟩]
        ⟨1, PhysDeviceType.discreteGpu⟩ (by decide)).1⟩

theorem lookup_interim_cons (e : Nat × DeviceImage × Bool)
    (rest : List (Nat × DeviceImage × Bool)) (k : Nat) :
    lookup_interim (e :: rest) k =
      if e.1 = k then some e.2 else lookup_interim rest k := rfl

theorem add_image_target_none_eq (s : Renderer) (key fmt : Nat) (v : DeviceImage)
    (rest : List DeviceImage) (h : s.final_views = v :: rest) :
    add_image_target s key none fmt =
      Except.ok (with_interim s (insert_interim s.interim_image_views key
        (create_device_image (v.width, v.height) fmt, true))) := by
  have hsize : final_image_size s = Except.ok (v.width, v.height) := by
    unfold final_image_size
    rw [h]
  unfold add_image_target
  dsimp only
  rw [hsize]
  rfl

theorem lookup_interim_remove (l : List (Nat × DeviceImage × Bool)) (k k2 : Nat) :
    lookup_interim (l.filter (fun e => e.1 ≠ k)) k2 =
      if k2 = k then none else lookup_interim l k2 := by
  induction l with
  | nil => simp [lookup_interim]
  | cons e rest ih =>
      by_cases hek : e.1 = k
      · have hfe : decide (e.1 ≠ k) = false := by simp [hek]
        simp only [List.filter_cons, hfe, Bool.false_eq_true, if_false]
        rw [ih, lookup_interim_cons]
        by_cases hk2 : k2 = k
        · rw [if_pos hk2, if_pos hk2]
        · rw [if_neg hk2, if_neg hk2, if_neg (fun h2 => hk2 (by rw [← h2, hek]))]
      · have hfe : decide (e.1 ≠ k) = true := by simp [hek]
        simp only [List.filter_cons, hfe, if_true]
        rw [lookup_interim_cons, lookup_interim_cons, ih]
        by_cases hk2 : k2 = k
        · have he2 : ¬ e.1 = k2 := fun h2 => hek (by rw [h2, hk2])
          rw [if_neg he2, if_pos hk2, if_pos hk2]
        · rw [if_neg hk2, if_neg hk2]

theorem lookup_interim_insert (l : List (Nat × DeviceImage × Bool)) (k k2 : Nat)
    (v : DeviceImage × Bool) :
    lookup_interim (insert_interim l k v) k2 =
      if k2 = k then some v else lookup_interim l k2 := by
  induction l with
  | nil =>
      rw [show insert_interim [] k v = [(k, v)] from rfl, lookup_interim_cons]
      by_cases hk2 : k2 = k
      · rw [if_pos (show (k, v).1 = k2 by rw [hk2]), if_pos hk2]
      · rw [if_neg (fun h2 => hk2 h2.symm), if_neg hk2]
  | cons e rest ih =>
      rw [show insert_interim (e :: rest) k v =
        (if e.1 = k then (k, v) :: rest else e :: insert_interim rest k v) from rfl]
      by_cases hek : e.1 = k
      · rw [if_pos hek, lookup_interim_cons, lookup_interim_cons]
        by_cases hk2 : k2 = k
        · rw [if_pos (show (k, v).1 = k2 by rw [hk2]), if_pos hk2]
        · rw [if_neg (fun h2 => hk2 h2.symm), if_neg hk2,
              if_neg (fun h2 => hk2 (by rw [← h2, hek]))]
      · rw [if_neg hek, lookup_interim_cons, lookup_interim_cons, ih]
        by_cases hk2 : k2 = k
        · have he2 : ¬ e.1 = k2 := fun h2 => hek (by rw [h2, hk2])
          rw [if_neg he2, if_pos hk2, if_pos hk2]
        · rw [if_neg hk2, if_neg hk2]

theorem lookup_interim_mem :
    ∀ (l : List (Nat × DeviceImage × Bool)) (k : Nat) (v : DeviceImage × Bool),
      lookup_interim l k = some v → (k, v) ∈ l := by
  intro l
  induction l with
  | nil => intro k v h; simp [lookup_interim] at h
  | cons e rest ih =>
      intro k v h
      unfold lookup_interim at h
      by_cases hek : e.1 = k
      · rw [if_pos hek] at h
        simp only [Option.some.injEq] at h
        have hkv : (k, v) = e := by rw [← hek, ← h]
        rw [hkv]
        exact List.mem_cons_self e rest
      · rw [if_neg hek] at h
        exact List.mem_cons_of_mem e (ih k v h)

theorem lookup_interim_of_mem_nodup :
    ∀ (l : List (Nat × DeviceImage × Bool)),
      (l.map (fun e => e.1)).Nodup →
      ∀ (k : Nat) (v : DeviceImage × Bool), (k, v) ∈ l → lookup_interim l k = some v := by
  intro l
  induction l with
  | nil => intro _ k v h; simp at h
  | cons e rest ih =>
      intro hnd k v h
      have hnd' : (e.1 :: rest.map (fun e2 => e2.1)).Nodup := by
        simpa only [List.map_cons] using hnd
      have hnd1 := (List.nodup_cons.mp hnd').1
      have hnd2 := (List.nodup_cons.mp hnd').2
      unfold lookup_interim
      rcases List.mem_cons.mp h with h2 | h2
      · rw [← h2]
        rw [if_pos rfl]
      · by_cases hek : e.1 = k
        · exfalso
          have hkmem : k ∈ rest.map (fun e2 => e2.1) :=
            List.mem_map.mpr ⟨(k, v), h2, rfl⟩
          rw [hek] at hnd1
          exact hnd1 hkmem
        · rw [if_neg hek]
          exact ih hnd2 k v h2

theorem resize_loop_spec :
    ∀ (keys : List Nat) (s : Renderer) (img0 : DeviceImage) (imgs : List DeviceImage),
      s.final_views = img0 :: imgs →
      keys.Nodup →
      (∀ k ∈ keys, ∃ img, lookup_interim s.interim_image_views k = some (img, true)) →
      ∃ s2, resize_interim_targets keys s = Except.ok s2 ∧
        s2.final_views = s.final_views ∧
        s2.swap_chain = s.swap_chain ∧
        s2.recreate_swapchain = s.recreate_swapchain ∧
        s2.previous_frame_end = s.previous_frame_end ∧
        s2.image_index = s.image_index ∧
        ∀ k, lookup_interim s2.interim_image_views k =
          if k ∈ keys then
            match lookup_interim s.interim_image_views k with
            | some (img, _b) =>
                some (create_device_image (img0.width, img0.height) img.format, true)
            | none => none
          else lookup_interim s.interim_image_views k := by
  intro keys
  induction keys with
  | nil =>
      intro s img0 imgs hfv hnd hpre
      refine ⟨s, rfl, rfl, rfl, rfl, rfl, rfl, ?_⟩
      intro k
      rw [if_neg (by simp)]
  | cons i ks ih =>
      intro s img0 imgs hfv hnd hpre
      obtain ⟨imgI, hlookI⟩ := hpre i (List.mem_cons_self i ks)
      have hik : i ∉ ks := (List.nodup_cons.mp hnd).1
      have hndks : ks.Nodup := (List.nodup_cons.mp hnd).2
      have hget : get_image_target s i = Except.ok imgI := by
        unfold get_image_target
        rw [hlookI]
      have hrsfv : (remove_image_target s i).final_views = img0 :: imgs := hfv
      have hadd := add_image_target_none_eq (remove_image_target s i) i imgI.format
        img0 imgs hrsfv
      set smid : Renderer := with_interim (remove_image_target s i)
        (insert_interim (remove_image_target s i).interim_image_views i
          (create_device_image (img0.width, img0.height) imgI.format, true)) with hsmid
      have hcons : resize_interim_targets (i :: ks) s =
          (match get_image_target s i with
           | Except.error p => Except.error p
           | Except.ok img =>
               match add_image_target (remove_image_target s i) i none img.format with
               | Except.error p => Except.error p
               | Except.ok s2 => resize_interim_targets ks s2) := rfl
      have hstep : resize_interim_targets (i :: ks) s = resize_interim_targets ks smid := by
        rw [hcons, hget]
        dsimp only
        rw [hadd]
      have hmidlook : ∀ k2, lookup_interim smid.interim_image_views k2 =
          if k2 = i then
            some (create_device_image (img0.width, img0.height) imgI.format, true)
          else lookup_interim s.interim_image_views k2 := by
        intro k2
        rw [hsmid]
        show lookup_interim (insert_interim ((remove_image_target s i).interim_image_views) i
          (create_device_image (img0.width, img0.height) imgI.format, true)) k2 = _
        rw [lookup_interim_insert]
        by_cases hk2 : k2 = i
        · rw [if_pos hk2, if_pos hk2]
        · rw [if_neg hk2, if_neg hk2]
          show lookup_interim (s.interim_image_views.filter (fun e => e.1 ≠ i)) k2 = _
          rw [lookup_interim_remove, if_neg hk2]
      have hmidfv : smid.final_views = img0 :: imgs := hrsfv
      have hmidpre : ∀ k ∈ ks, ∃ img,
          lookup_interim smid.interim_image_views k = some (img, true) := by
        intro k hk
        obtain ⟨img, himg⟩ := hpre k (List.mem_cons_of_mem i hk)
        refine ⟨img, ?_⟩
        rw [hmidlook k, if_neg (fun h => hik (by rw [← h]; exact hk))]
        exact himg
      obtain ⟨s2, hs2run, hs2fv, hs2sc, hs2rc, hs2pf, hs2ii, hs2look⟩ :=
        ih smid img0 imgs hmidfv hndks hmidpre
      have hmidsc : smid.swap_chain = s.swap_chain := rfl
      have hmidrc : smid.recreate_swapchain = s.recreate_swapchain := rfl
      have hmidpfe : smid.previous_frame_end = s.previous_frame_end := rfl
      have hmidii : smid.image_index = s.image_index := rfl
      refine ⟨s2, by rw [hstep]; exact hs2run, by rw [hs2fv, hmidfv, hfv],
        by rw [hs2sc, hmidsc], by rw [hs2rc, hmidrc], by rw [hs2pf, hmidpfe],
        by rw [hs2ii, hmidii], ?_⟩
      intro k
      rw [hs2look k]
      by_cases hk : k ∈ ks
      · have hki : k ≠ i := fun h => hik (by rw [← h]; exact hk)
        rw [if_pos hk, if_pos (List.mem_cons_of_mem i hk)]
        rw [hmidlook k, if_neg hki]
      · by_cases hki : k = i
        · rw [if_neg hk, if_pos (by rw [hki]; exact List.mem_cons_self i ks)]
          rw [hmidlook k, if_pos hki, hki, hlookI]
        · have hnotin : k ∉ i :: ks := by
            intro hmem
            rcases List.mem_cons.mp hmem with h2 | h2
            · exact hki h2
            · exact hk h2
          rw [if_neg hk, if_neg hnotin]
          rw [hmidlook k, if_neg hki]

/-- C10: after a successful swapchain recreation the interim image
target map has exactly the same keys: every follow-swapchain target is
recreated under its key with its previous format at the new final image
size, and every fixed-size target is left untouched (same image, same
size, same format). -/
theorem C10_recreate_preserves_interim_targets :
    ∀ (newSc : Nat) (img0 : DeviceImage) (imgs : List DeviceImage) (s : Renderer),
      (s.interim_image_views.map (fun e => e.1)).Nodup →
      ∃ s2, recreate_swapchain_and_views (RecreateResult.ok newSc (img0 :: imgs)) s =
          Except.ok s2 ∧
        s2.swap_chain = newSc ∧
        s2.final_views = img0 :: imgs ∧
        s2.recreate_swapchain = false ∧
        ∀ k, lookup_interim s2.interim_image_views k =
          match lookup_interim s.interim_image_views k with
          | some (img, true) =>
              some (create_device_image (img0.width, img0.height) img.format, true)
          | some (img, false) => some (img, false)
          | none => none := by
  intro newSc img0 imgs s hnd
  set s1 : Renderer := { s with swap_chain := newSc, final_views := img0 :: imgs } with hs1
  set keys : List Nat :=
    (s1.interim_image_views.filter (fun e => e.2.2)).map (fun e => e.1) with hkeys
  have hinterim : s1.interim_image_views = s.interim_image_views := rfl
  have hnd1 : keys.Nodup := by
    rw [hkeys, hinterim]
    exact List.Nodup.sublist
      ((s.interim_image_views.filter_sublist).map (fun e => e.1)) hnd
  have hpre : ∀ k ∈ keys, ∃ img,
      lookup_interim s1.interim_image_views k = some (img, true) := by
    intro k hk
    rw [hkeys, hinterim] at hk
    obtain ⟨e, hemem, hek⟩ := List.mem_map.mp hk
    have hfe := List.mem_filter.mp hemem
    refine ⟨e.2.1, ?_⟩
    rw [hinterim, ← hek]
    have hlk : lookup_interim s.interim_image_views e.1 = some e.2 :=
      lookup_interim_of_mem_nodup s.interim_image_views hnd e.1 e.2 hfe.1
    have hb : e.2.2 = true := hfe.2
    rw [hlk, ← hb]
  obtain ⟨s2, hrun, hfv2, hsc2, hrc2, hpf2, hii2, hlook2⟩ :=
    resize_loop_spec keys s1 img0 imgs rfl hnd1 hpre
  have hrec : recreate_swapchain_and_views (RecreateResult.ok newSc (img0 :: imgs)) s =
      (match resize_interim_targets keys s1 with
       | Except.error p => Except.error p
       | Except.ok sr => Except.ok { sr with recreate_swapchain := false }) := rfl
  refine ⟨{ s2 with recreate_swapchain := false }, by rw [hrec, hrun], hsc2, hfv2, rfl, ?_⟩
  intro k
  have hl := hlook2 k
  rw [hinterim] at hl
  show lookup_interim s2.interim_image_views k = _
  rw [hl]
  by_cases hcase : ∃ img, lookup_interim s.interim_image_views k = some (img, true)
  · obtain ⟨img, himg⟩ := hcase
    have hkmem : k ∈ keys := by
      rw [hkeys, hinterim]
      exact List.mem_map.mpr ⟨(k, img, true),
        List.mem_filter.mpr
          ⟨lookup_interim_mem s.interim_image_views k (img, true) himg, rfl⟩,
        rfl⟩
    rw [if_pos hkmem, himg]
  · have hkmem : k ∉ keys := fun hk => hcase ((hinterim ▸ hpre k hk : ∃ img,
      lookup_interim s.interim_image_views k = some (img, true)))
    rw [if_neg hkmem]
    cases hlk : lookup_interim s.interim_image_views k with
    | none => rfl
    | some v =>
        obtain ⟨img, b⟩ := v
        cases b with
        | true => exact absurd ⟨img, hlk⟩ hcase
        | false => rfl

/-- Witness for C10 at a concrete renderer with one follow-swapchain
target and one fixed-size target. -/
theorem C10_witness :
    ∃ s2, recreate_swapchain_and_views (RecreateResult.ok 9 [⟨20, 30, 5⟩])
        { swap_chain := 0, image_index := 0, final_views := [⟨10, 10, 5⟩],
          interim_image_views := [(1, ⟨10, 10, 3⟩, true), (2, ⟨7, 7, 4⟩, false)],
          recreate_swapchain := true, previous_frame_end := some Token.now } =
        Except.ok s2 ∧
      s2.swap_chain = 9 ∧
      s2.final_views = [⟨20, 30, 5⟩] ∧
      s2.recreate_swapchain = false ∧
      ∀ k, lookup_interim s2.interim_image_views k =
        match lookup_interim
            [(1, (⟨10, 10, 3⟩ : DeviceImage), true), (2, ⟨7, 7, 4⟩, false)] k with
        | some (img, true) => some (create_device_image (20, 30) img.format, true)
        | some (img, false) => some (img, false)
        | none => none :=
  C10_recreate_preserves_interim_targets 9 ⟨20, 30, 5⟩ [] _ (by decide)

end BevyVulkano